import Mathlib

/-!
Shallow embedding of the worker-pool core of `src/bot_commenter.py`
(the async YouTube comment poster), together with theorems settling the
frozen claims about its specification.

Modelling conventions:
* Machine-external interactions (Playwright page actions, network I/O,
  sleeps) are collapsed to boolean outcome oracles: each external call that
  the Python code wraps in `try/except` is represented by a `Bool` saying
  whether the call succeeded (no exception) or raised.
* The shared `asyncio.Event` cancellation flag is modelled as a `Bool`
  field that is constant during one pure call (the code only ever observes
  it; nothing in the worker sets it), and as a `Nat → Bool` schedule for
  the distributor (whether the flag is observed set at iteration `i`).
* Python `int` counters are `Nat`; the single decrement in the source
  (`successful_posts -= 1`, line 235) always follows an increment on the
  same path, so `Nat` subtraction is exact there.
* Error messages contain exception text from the environment, so an error
  record is modelled as the pair (username, kind of error site).
-/

namespace BotCommenter

/-- Kind of error record appended to a worker's `stats.errors` list,
one constructor per `errors.append` site in `bot_commenter.py`. -/
inductive ErrKind where
  | initError
  | loginError
  | commentError
  | workerError
deriving DecidableEq

/-- The `CommentStats` dataclass (bot_commenter.py lines 12-20), with the
dataclass defaults as Lean default field values. -/
structure CommentStats where
  total_attempts : Nat := 0
  successful_posts : Nat := 0
  failed_posts : Nat := 0
  login_failures : Nat := 0
  stopped_early : Bool := false
  errors : List (String × ErrKind) := []
deriving DecidableEq

/-- Mutable state of one `AsyncBrowserWorker` that the claims concern:
its username, the `is_logged_in` flag, the observed value of the shared
`stop_event`, and its `stats` record (constructor, lines 24-35). -/
structure WorkerState where
  username : String
  is_logged_in : Bool
  stop : Bool
  stats : CommentStats
deriving DecidableEq

/-- A freshly constructed worker for a given username: not logged in,
stop flag clear, zeroed stats (constructor defaults). -/
def freshWorker (u : String) : WorkerState :=
  { username := u, is_logged_in := false, stop := false, stats := {} }

/-- A worker that has already authenticated (reachable from `freshWorker`
by a successful `login`), used as a concrete test state. -/
def loggedInWorker (u : String) : WorkerState :=
  { username := u, is_logged_in := true, stop := false, stats := {} }

/-- Outcomes of the external calls that one run-loop iteration
(lines 221-236) can make for one task: the lazy login inside the first
`post_comment`, the first comment action, the explicit re-login of the
retry branch, the (never reached) lazy login inside the retried
`post_comment`, and the retried comment action. -/
structure TaskOracle where
  login1 : Bool
  post1 : Bool
  login2 : Bool
  login3 : Bool
  post2 : Bool
deriving DecidableEq

/-- Append an error record for the worker (the `self.stats.errors.append`
pattern used at every except-site). -/
def appendError (s : WorkerState) (k : ErrKind) : WorkerState :=
  { s with stats := { s.stats with errors := s.stats.errors ++ [(s.username, k)] } }

/-- Embeds `AsyncBrowserWorker.login` (lines 93-139). If already logged in,
return `True` at once; if the stop event is set, return `False`; otherwise
the browser interaction either completes (sets `is_logged_in`, returns
`True`) or raises (increments `login_failures`, records the error, returns
`False`). The mid-body stop checks of the source are subsumed by the
leading one because the stop flag is constant during the call. -/
def login (outcome : Bool) (s : WorkerState) : Bool × WorkerState :=
  if s.is_logged_in then (true, s)
  else if s.stop then (false, s)
  else if outcome then (true, { s with is_logged_in := true })
  else (false, appendError { s with stats := { s.stats with login_failures := s.stats.login_failures + 1 } } ErrKind.loginError)

/-- Embeds `AsyncBrowserWorker.post_comment` (lines 141-211). Returns `False`
when the stop event is set; performs the lazy login when not logged in and
returns `False` (without touching `failed_posts`) when that login fails;
otherwise the page interaction either completes (increments
`successful_posts`, returns `True`) or raises (increments `failed_posts`,
records the error, returns `False`). -/
def post_comment (loginOutcome : Bool) (actionOutcome : Bool) (s : WorkerState) :
    Bool × WorkerState :=
  if s.stop then (false, s)
  else
    let r := if s.is_logged_in then (true, s) else login loginOutcome s
    if r.1 = false then (false, r.2)
    else if actionOutcome then
      (true, { r.2 with stats := { r.2.stats with successful_posts := r.2.stats.successful_posts + 1 } })
    else
      (false, appendError { r.2 with stats := { r.2.stats with failed_posts := r.2.stats.failed_posts + 1 } } ErrKind.commentError)

/-- One iteration of the run loop after a task has been pulled
(lines 226-236): increment `total_attempts`, attempt `post_comment`; on
failure clear `is_logged_in`, re-`login` once and, if that succeeds, retry
`post_comment` once, decrementing `successful_posts` after a successful
retry (the `# Correct the double count` line 235). -/
def processTask (o : TaskOracle) (s : WorkerState) : WorkerState :=
  let s1 := { s with stats := { s.stats with total_attempts := s.stats.total_attempts + 1 } }
  let r1 := post_comment o.login1 o.post1 s1
  if r1.1 then r1.2
  else
    let s3 := { r1.2 with is_logged_in := false }
    let r2 := login o.login2 s3
    if r2.1 then
      let r3 := post_comment o.login3 o.post2 r2.2
      if r3.1 then
        { r3.2 with stats := { r3.2.stats with successful_posts := r3.2.stats.successful_posts - 1 } }
      else r3.2
    else r2.2

/-- The run loop of `AsyncBrowserWorker.run` (lines 219-239), given the
list of tasks the worker pulls from its queue, each with its oracle of
external outcomes: if the stop event is set the loop body never runs,
otherwise the worker drains the tasks in FIFO order. -/
def runTasks (os : List TaskOracle) (s : WorkerState) : WorkerState :=
  if s.stop then s else os.foldl (fun st o => processTask o st) s

/-- Embeds `AsyncBrowserWorker.initialize_browser` (lines 48-80): returns `False`
without recording anything when the stop event is set; otherwise the
Playwright startup either completes (returns `True`) or raises (records an
init error, returns `False`). -/
def init_browser (outcome : Bool) (s : WorkerState) : Bool × WorkerState :=
  if s.stop then (false, s)
  else if outcome then (true, s)
  else (false, appendError s ErrKind.initError)

/-- Embeds `AsyncBrowserWorker.run` (lines 213-247): initialize the browser and
return at once on failure, else drain the queue. The `finally` browser
close has no effect on the observable statistics. -/
def workerRun (initOutcome : Bool) (os : List TaskOracle) (s : WorkerState) : WorkerState :=
  let r := init_browser initOutcome s
  if r.1 then runTasks os r.2 else r.2

/-- Embeds `AsyncBrowserWorker.get_stats` (lines 249-253): mark `stopped_early`
when the stop event is set at read time. -/
def get_stats (stopSet : Bool) (st : CommentStats) : CommentStats :=
  if stopSet then { st with stopped_early := true } else st

/-- An account record loaded from the accounts file: a username and a
password. -/
structure Account where
  username : String
  password : String
deriving DecidableEq

/-- A worker object as the manager sees it: its creation index in
`setup_workers` (standing for Python object identity) and its account. -/
structure Worker where
  idx : Nat
  account : Account
deriving DecidableEq

/-- Python `dict` assignment `d[k] = v` on an association list that
preserves first-insertion order and overwrites the value of an existing
key. -/
def dictInsert {β : Type} (m : List (String × β)) (k : String) (v : β) :
    List (String × β) :=
  if m.any (fun p => p.1 = k) then
    m.map (fun p => if p.1 = k then (k, v) else p)
  else m ++ [(k, v)]

/-- Embeds `AsyncCommentManager.setup_workers` (lines 263-269): for each account
in order, create a worker, store it in the `workers` dict under its
username (overwriting any earlier worker with the same username), and
start its run loop as a task. Returns the final `workers` dict and the
list of workers whose run loop was started (`self.tasks`). -/
def setup_workers (accounts : List Account) : List (String × Worker) × List Worker :=
  accounts.enum.foldl
    (fun acc p =>
      let w : Worker := { idx := p.1, account := p.2 }
      (dictInsert acc.1 p.2.username w, acc.2 ++ [w]))
    ([], [])

/-- Embeds the `AsyncCommentManager.distribute_comments` loop body (lines 276-282),
generalized over the start index. `W` is the length of the shuffled
`available_workers` list (the shuffle happens exactly once, before the
loop; the produced worker indices are positions in that fixed shuffled
list). At each iteration: stop if the signal is observed set; otherwise
compute `i % W` — which in Python raises `ZeroDivisionError` when
`W = 0`, modelled as `Except.error ()` — and enqueue the comment to that
worker. -/
def distributeAux {α : Type} (W : Nat) (stopped : Nat → Bool) :
    Nat → List α → Except Unit (List (Nat × α))
  | _, [] => Except.ok []
  | i, c :: rest =>
    if stopped i then Except.ok []
    else if W = 0 then Except.error ()
    else (distributeAux W stopped (i + 1) rest).map (fun tail => (i % W, c) :: tail)

/-- Embeds `AsyncCommentManager.distribute_comments` (lines 271-282): round-robin
enqueue of the comments over the `W` shuffled workers, stopping early when
the cancellation signal is observed. The result is the ordered list of
(worker index, comment) enqueue operations. -/
def distributeComments {α : Type} (W : Nat) (comments : List α) (stopped : Nat → Bool) :
    Except Unit (List (Nat × α)) :=
  distributeAux W stopped 0 comments

/-- Modelled from the spec: the TaskDistributor contract "assign
`tasks[i]` to `workers[i mod |workers|]` in that fixed random order",
as a straight-line assignment table, generalized over the start index.
Reference definition to compare `distributeComments` against. -/
def specAssignFrom {α : Type} (W : Nat) : Nat → List α → List (Nat × α)
  | _, [] => []
  | i, c :: rest => (i % W, c) :: specAssignFrom W (i + 1) rest

/-- Number of enqueue operations an assignment list sends to worker
index `j`. -/
def countFor {α : Type} (assignments : List (Nat × α)) (j : Nat) : Nat :=
  (assignments.filter (fun p => p.1 == j)).length

/-- Number of task indices below `n` that round-robin maps to worker
index `j`. -/
def countRange (n W j : Nat) : Nat :=
  ((List.range n).filter (fun t => t % W == j)).length

/-- The per-worker entry stored in `worker_stats[username]`
(lines 291-296): the four counters. -/
structure PerWorkerStats where
  total_attempts : Nat
  successful_posts : Nat
  failed_posts : Nat
  login_failures : Nat
deriving DecidableEq

/-- Projection of a worker's `CommentStats` to its `worker_stats` entry. -/
def projStats (st : CommentStats) : PerWorkerStats :=
  { total_attempts := st.total_attempts
    successful_posts := st.successful_posts
    failed_posts := st.failed_posts
    login_failures := st.login_failures }

/-- The `"total"` block of the report (lines 308-315). -/
structure TotalBlock where
  accounts_used : Nat
  total_attempts : Nat
  successful_posts : Nat
  failed_posts : Nat
  login_failures : Nat
  stopped_early : Bool
deriving DecidableEq

/-- The dictionary returned by `get_all_stats` (lines 307-318). -/
structure Report where
  total : TotalBlock
  by_account : List (String × PerWorkerStats)
  errors : List (String × ErrKind)
deriving DecidableEq

/-- The aggregation loop of `AsyncCommentManager.get_all_stats`
(lines 289-305): for each worker in iteration order, read its stats via
`get_stats`, store the four counters in `worker_stats` (a dict insert),
and add them into `total_stats`, extending the error list and or-ing
`stopped_early`. -/
def statsLoop (stopSet : Bool) :
    List (String × CommentStats) → CommentStats → List (String × PerWorkerStats) →
    CommentStats × List (String × PerWorkerStats)
  | [], tot, m => (tot, m)
  | (u, ws) :: rest, tot, m =>
    let st := get_stats stopSet ws
    statsLoop stopSet rest
      { tot with
          total_attempts := tot.total_attempts + st.total_attempts
          successful_posts := tot.successful_posts + st.successful_posts
          failed_posts := tot.failed_posts + st.failed_posts
          login_failures := tot.login_failures + st.login_failures
          errors := tot.errors ++ st.errors
          stopped_early := tot.stopped_early || st.stopped_early }
      (dictInsert m u (projStats st))

/-- Embeds `AsyncCommentManager.get_all_stats` (lines 284-318): run the
aggregation loop from zeroed totals and an empty `worker_stats` dict and
assemble the report dictionary. -/
def get_all_stats (stopSet : Bool) (workers : List (String × CommentStats)) : Report :=
  let r := statsLoop stopSet workers {} []
  { total :=
      { accounts_used := workers.length
        total_attempts := r.1.total_attempts
        successful_posts := r.1.successful_posts
        failed_posts := r.1.failed_posts
        login_failures := r.1.login_failures
        stopped_early := r.1.stopped_early }
    by_account := r.2
    errors := r.1.errors }

/-- One full run of `post_youtube_comments` (lines 326-367) in the
drain-to-completion scenario: distribute the comments over the
`names.length` workers (in shuffled-list position order), let worker `j`
process the tasks enqueued to it (task `t` of worker `j` has external
outcomes `oracle j t`, and the worker's browser initialization outcome is
`initOk j`), then aggregate with `get_all_stats`. `stopSet` is whether the
stop event is set when the stats are read. Propagates the
`ZeroDivisionError` of the distributor. -/
def runReport {α : Type} (names : List String) (comments : List α)
    (stopped : Nat → Bool) (initOk : Nat → Bool) (oracle : Nat → Nat → TaskOracle)
    (stopSet : Bool) : Except Unit Report :=
  match distributeComments names.length comments stopped with
  | Except.error e => Except.error e
  | Except.ok assignments =>
    Except.ok (get_all_stats stopSet
      (names.enum.map (fun p =>
        (p.2, (workerRun (initOk p.1)
                ((List.range (countFor assignments p.1)).map (oracle p.1))
                (freshWorker p.2)).stats))))

/-- The manager-level suspension points of the teardown of
`post_youtube_comments`. -/
inductive PoolEvent where
  | readStats
  | setSignal
  | joinWorkers
deriving DecidableEq

/-- The `finally` block of `post_youtube_comments` (lines 363-365) with
`AsyncCommentManager.stop_all` (lines 320-323) inlined, as the ordered
sequence of manager operations: `stats = await manager.get_all_stats()`,
then `self.stop_event.set()`, then `await asyncio.gather(*self.tasks)`. -/
def shutdownEvents : List PoolEvent :=
  [PoolEvent.readStats, PoolEvent.setSignal, PoolEvent.joinWorkers]

/-- The intermediate worker state reached, while processing the C1/C2
failing task from `loggedInWorker "alice"`, just before the retried
`post_comment`: `total_attempts` was incremented, the first comment action
raised (`failed_posts = 1`, error recorded), `is_logged_in` was cleared by
the run loop and restored by the successful re-login. -/
def midRetryState : WorkerState :=
  { username := "alice", is_logged_in := true, stop := false
    stats := { total_attempts := 1, failed_posts := 1
               errors := [("alice", ErrKind.commentError)] } }

/-!
### Helper lemmas
-/

/-- Componentwise order on the four counters of a stats record. -/
def statsLe (a b : CommentStats) : Prop :=
  a.total_attempts ≤ b.total_attempts ∧
  a.successful_posts ≤ b.successful_posts ∧
  a.failed_posts ≤ b.failed_posts ∧
  a.login_failures ≤ b.login_failures

theorem statsLe_refl (a : CommentStats) : statsLe a a := by
  simp [statsLe]

theorem statsLe_trans {a b c : CommentStats} (h1 : statsLe a b) (h2 : statsLe b c) :
    statsLe a c := by
  obtain ⟨x1, x2, x3, x4⟩ := h1
  obtain ⟨y1, y2, y3, y4⟩ := h2
  exact ⟨x1.trans y1, x2.trans y2, x3.trans y3, x4.trans y4⟩

theorem processTask_statsLe (o : TaskOracle) (s : WorkerState) :
    statsLe s.stats (processTask o s).stats := by
  rcases o with ⟨l1, p1, l2, l3, p2⟩
  cases l1 <;> cases p1 <;> cases l2 <;> cases l3 <;> cases p2 <;>
    cases hli : s.is_logged_in <;> cases hst : s.stop <;>
    simp [processTask, post_comment, login, appendError, statsLe, hli, hst] <;>
    omega

theorem foldl_processTask_statsLe (os : List TaskOracle) (s : WorkerState) :
    statsLe s.stats (os.foldl (fun st o => processTask o st) s).stats := by
  induction os generalizing s with
  | nil => exact statsLe_refl _
  | cons o rest ih =>
    exact statsLe_trans (processTask_statsLe o s) (ih (processTask o s))

theorem runTasks_statsLe (os : List TaskOracle) (s : WorkerState) :
    statsLe s.stats (runTasks os s).stats := by
  unfold runTasks
  split
  · exact statsLe_refl _
  · exact foldl_processTask_statsLe os s

theorem init_browser_statsLe (outcome : Bool) (s : WorkerState) :
    statsLe s.stats (init_browser outcome s).2.stats := by
  cases outcome <;> cases hst : s.stop <;>
    simp [init_browser, appendError, statsLe, hst]

/-- Evaluation of one run-loop iteration when the worker is not logged in,
the stop event is clear, and both the lazy login and the explicit re-login
fail: `total_attempts` gains 1, `login_failures` gains 2, two login errors
are recorded, and nothing else changes (in particular the action outcomes
`post1`/`post2` are never consulted). -/
theorem processTask_auth_fail (o : TaskOracle) (s : WorkerState)
    (h1 : o.login1 = false) (h2 : o.login2 = false)
    (hl : s.is_logged_in = false) (hs : s.stop = false) :
    processTask o s =
      { s with stats := { s.stats with
          total_attempts := s.stats.total_attempts + 1
          login_failures := s.stats.login_failures + 2
          errors := s.stats.errors
            ++ [(s.username, ErrKind.loginError), (s.username, ErrKind.loginError)] } } := by
  rcases s with ⟨u, li, st, ⟨ta, sp, fp, lf, se, er⟩⟩
  simp only at hl hs
  subst hl; subst hs
  simp [processTask, post_comment, login, appendError, h1, h2]

theorem replicate_two_add {α : Type} (n : Nat) (x : α) :
    List.replicate (2 * (n + 1)) x = x :: x :: List.replicate (2 * n) x := by
  have h : 2 * (n + 1) = 2 * n + 1 + 1 := by ring
  rw [h, List.replicate_succ, List.replicate_succ]

/-- Unfolding the run loop by one pulled task when the stop event stays
clear. -/
theorem runTasks_cons (o : TaskOracle) (os : List TaskOracle) (s : WorkerState)
    (hs : s.stop = false) (hs2 : (processTask o s).stop = false) :
    runTasks (o :: os) s = runTasks os (processTask o s) := by
  simp [runTasks, hs, hs2]

/-- Evaluation of the whole run loop for a worker that starts unauthenticated
with the stop event clear, when every login attempt in its oracle list
fails. -/
theorem runTasks_auth_fail (os : List TaskOracle) (s : WorkerState)
    (hos : ∀ o ∈ os, o.login1 = false ∧ o.login2 = false)
    (hl : s.is_logged_in = false) (hs : s.stop = false) :
    runTasks os s =
      { s with stats := { s.stats with
          total_attempts := s.stats.total_attempts + os.length
          login_failures := s.stats.login_failures + 2 * os.length
          errors := s.stats.errors
            ++ List.replicate (2 * os.length) (s.username, ErrKind.loginError) } } := by
  induction os generalizing s with
  | nil =>
    rcases s with ⟨u, li, st, ⟨ta, sp, fp, lf, se, er⟩⟩
    simp [runTasks]
  | cons o rest ih =>
    have hfirst := hos o (List.mem_cons_self o rest)
    have hstep := processTask_auth_fail o s hfirst.1 hfirst.2 hl hs
    have hrest : ∀ o2 ∈ rest, o2.login1 = false ∧ o2.login2 = false := by
      intro o2 hmem
      exact hos o2 (List.mem_cons_of_mem o hmem)
    have hs2 : (processTask o s).stop = false := by rw [hstep]; exact hs
    have hl2 : (processTask o s).is_logged_in = false := by rw [hstep]; exact hl
    rw [runTasks_cons o rest s hs hs2, ih (processTask o s) hrest hl2 hs2, hstep]
    rcases s with ⟨u, li, st, ⟨ta, sp, fp, lf, se, er⟩⟩
    simp [replicate_two_add]
    omega

/-!
### Claim theorems
-/

/-- C1: the claim states that a task whose first `post_comment` fails and
whose single retried `post_comment` succeeds contributes exactly one
`successes` increment and zero `failures` increments. The code instead
nets zero successes — the retried success is incremented and then
immediately decremented by the `# Correct the double count` line 235,
although the failed first attempt never counted a success — and one
failure from the first attempt's `failed_posts += 1`. This theorem
evaluates the run-loop iteration at that failing input: worker logged in,
first action raises, re-login succeeds, retried action succeeds. -/
theorem C1_retry_success_miscount :
    (processTask { login1 := true, post1 := false, login2 := true, login3 := true, post2 := true }
        (loggedInWorker "alice")).stats.successful_posts = 0 ∧
    (processTask { login1 := true, post1 := false, login2 := true, login3 := true, post2 := true }
        (loggedInWorker "alice")).stats.failed_posts = 1 ∧
    (processTask { login1 := true, post1 := false, login2 := true, login3 := true, post2 := true }
        (loggedInWorker "alice")).stats.total_attempts = 1 := by
  decide

/-- C2: the claim states that no worker operation ever decreases any
counter. In the code, processing a task whose first attempt fails and
whose retry succeeds drives `successful_posts` from 0 up to 1 (the
retried `post_comment`, whose result state from the reachable
`midRetryState` is computed here) and then back down to 0 (the decrement
at line 235): the final state of the iteration is exactly the retried
post's result state with `successful_posts` decremented, so the counter
value decreases from 1 to 0 during the run. -/
theorem C2_counter_decrease :
    (post_comment true true midRetryState).2.stats.successful_posts = 1 ∧
    (processTask { login1 := true, post1 := false, login2 := true, login3 := true, post2 := true }
        (loggedInWorker "alice")).stats.successful_posts = 0 ∧
    processTask { login1 := true, post1 := false, login2 := true, login3 := true, post2 := true }
        (loggedInWorker "alice")
      = { (post_comment true true midRetryState).2 with
            stats := { (post_comment true true midRetryState).2.stats with
              successful_posts :=
                (post_comment true true midRetryState).2.stats.successful_posts - 1 } } := by
  decide

/-- C5 counterexample: the claim states that cancellation is requested and
every worker is joined before the per-worker counters are read. In the
`finally` block the manager reads and sums the stats first
(`get_all_stats`) and only then runs `stop_all` (set the signal, join):
`readStats` does not come after `setSignal` in the teardown sequence. -/
theorem C5_report_before_join :
    ¬ (shutdownEvents.indexOf PoolEvent.setSignal
        < shutdownEvents.indexOf PoolEvent.readStats) := by
  decide

/-- C5 (amended): the aggregate report is built first; only afterwards is
cancellation requested and are the workers joined. In the teardown
sequence of `post_youtube_comments`, reading the stats precedes setting
the cancellation signal, which precedes joining the workers. -/
theorem C5_amended_teardown_order :
    shutdownEvents.indexOf PoolEvent.readStats
      < shutdownEvents.indexOf PoolEvent.setSignal ∧
    shutdownEvents.indexOf PoolEvent.setSignal
      < shutdownEvents.indexOf PoolEvent.joinWorkers := by
  decide

/-- C2 (amended): all four counters are monotonically non-decreasing
across every complete worker run (browser initialization followed by the
run loop over any pulled tasks, from any starting state): the one
decreasing step in the code — the `successful_posts -= 1` correction at
line 235, applied only immediately after the increment of a successful
retried post — never drops a counter below its value at the task
boundary. -/
theorem C2_amended_counters_monotone (initOutcome : Bool) (os : List TaskOracle)
    (s : WorkerState) :
    statsLe s.stats (workerRun initOutcome os s).stats := by
  unfold workerRun
  cases h : (init_browser initOutcome s).1 <;> simp only [h]
  · simp only [Bool.false_eq_true, if_false]
    exact init_browser_statsLe initOutcome s
  · simp only [if_true]
    exact statsLe_trans (init_browser_statsLe initOutcome s)
      (runTasks_statsLe os (init_browser initOutcome s).2)

/-- C4 counterexample: the claim states `authFailures == assignedTaskCount`
(one increment per assigned task) for a worker whose login always fails.
With one assigned task the code increments `login_failures` twice: once in
the lazy login inside `post_comment` and once in the explicit re-login of
the retry branch. -/
theorem C4_double_auth_failure :
    (runTasks [{ login1 := false, post1 := true, login2 := false, login3 := true, post2 := true }]
        (freshWorker "w")).stats.login_failures = 2 ∧
    ¬ (runTasks [{ login1 := false, post1 := true, login2 := false, login3 := true, post2 := true }]
        (freshWorker "w")).stats.login_failures = 1 := by
  decide

/-- C4 (amended): a worker that starts unauthenticated with the stop event
clear and whose `authenticate()` always fails contributes
`attempts == assignedTaskCount`, `successes == 0`, `failures == 0`, and
`authFailures == 2 * assignedTaskCount` (two increments per task: the lazy
login inside `post_comment` and the explicit re-login of the retry
branch); it never performs the remote comment action — its final state is
the same for any choice of the action outcomes (`post1`, `post2`, and the
unreachable `login3`) over the same number of tasks. -/
theorem C4_amended_auth_always_fails (os os2 : List TaskOracle) (s : WorkerState)
    (hlen : os.length = os2.length)
    (hos : ∀ o ∈ os, o.login1 = false ∧ o.login2 = false)
    (hos2 : ∀ o ∈ os2, o.login1 = false ∧ o.login2 = false)
    (hl : s.is_logged_in = false) (hs : s.stop = false) :
    (runTasks os s).stats.total_attempts = s.stats.total_attempts + os.length ∧
    (runTasks os s).stats.successful_posts = s.stats.successful_posts ∧
    (runTasks os s).stats.failed_posts = s.stats.failed_posts ∧
    (runTasks os s).stats.login_failures = s.stats.login_failures + 2 * os.length ∧
    runTasks os s = runTasks os2 s := by
  rw [runTasks_auth_fail os s hos hl hs, runTasks_auth_fail os2 s hos2 hl hs, hlen]
  simp

/-- C4 witness: the amended claim instantiated at a fresh worker with two
assigned tasks whose logins always fail, compared against a second oracle
list with different action outcomes. -/
theorem C4_amended_auth_always_fails_witness :
    (runTasks
        [{ login1 := false, post1 := true, login2 := false, login3 := true, post2 := true },
         { login1 := false, post1 := false, login2 := false, login3 := false, post2 := false }]
        (freshWorker "w")).stats.total_attempts = (freshWorker "w").stats.total_attempts + 2 ∧
    (runTasks
        [{ login1 := false, post1 := true, login2 := false, login3 := true, post2 := true },
         { login1 := false, post1 := false, login2 := false, login3 := false, post2 := false }]
        (freshWorker "w")).stats.successful_posts = (freshWorker "w").stats.successful_posts ∧
    (runTasks
        [{ login1 := false, post1 := true, login2 := false, login3 := true, post2 := true },
         { login1 := false, post1 := false, login2 := false, login3 := false, post2 := false }]
        (freshWorker "w")).stats.failed_posts = (freshWorker "w").stats.failed_posts ∧
    (runTasks
        [{ login1 := false, post1 := true, login2 := false, login3 := true, post2 := true },
         { login1 := false, post1 := false, login2 := false, login3 := false, post2 := false }]
        (freshWorker "w")).stats.login_failures = (freshWorker "w").stats.login_failures + 2 * 2 ∧
    runTasks
        [{ login1 := false, post1 := true, login2 := false, login3 := true, post2 := true },
         { login1 := false, post1 := false, login2 := false, login3 := false, post2 := false }]
        (freshWorker "w")
      = runTasks
        [{ login1 := false, post1 := false, login2 := false, login3 := false, post2 := false },
         { login1 := false, post1 := true, login2 := false, login3 := true, post2 := true }]
        (freshWorker "w") :=
  C4_amended_auth_always_fails
    [{ login1 := false, post1 := true, login2 := false, login3 := true, post2 := true },
     { login1 := false, post1 := false, login2 := false, login3 := false, post2 := false }]
    [{ login1 := false, post1 := false, login2 := false, login3 := false, post2 := false },
     { login1 := false, post1 := true, login2 := false, login3 := true, post2 := true }]
    (freshWorker "w") (by decide) (by decide) (by decide) (by decide) (by decide)

/-- C7 counterexample: the claim states that running the distributor with
zero workers is a no-op that completes without error for every task
sequence. With zero workers and a non-empty task sequence the first
iteration evaluates `i % len(available_workers)` with length 0, which
raises `ZeroDivisionError`. -/
theorem C7_zero_workers_error :
    distributeComments 0 [(1 : Nat)] (fun _ => false) = Except.error () := by
  rfl

/-- C9 counterexample: the claim states that every task assigned to a
worker whose browser initialization fails shows up as one initialization
failure per task in the error list. With two assigned tasks, the worker
records exactly one error (the single init failure) and processes zero
tasks: the assigned tasks produce no error entries at all. -/
theorem C9_single_init_error :
    (workerRun false
        [{ login1 := true, post1 := true, login2 := true, login3 := true, post2 := true },
         { login1 := false, post1 := false, login2 := false, login3 := false, post2 := false }]
        (freshWorker "w")).stats.errors.length = 1 ∧
    ¬ (workerRun false
        [{ login1 := true, post1 := true, login2 := true, login3 := true, post2 := true },
         { login1 := false, post1 := false, login2 := false, login3 := false, post2 := false }]
        (freshWorker "w")).stats.errors.length = 2 ∧
    (workerRun false
        [{ login1 := true, post1 := true, login2 := true, login3 := true, post2 := true },
         { login1 := false, post1 := false, login2 := false, login3 := false, post2 := false }]
        (freshWorker "w")).stats.total_attempts = 0 := by
  decide

/-- C9 (amended): a worker whose browser initialization fails (with the
stop event clear) records exactly one initialization-failure error and
terminates having processed zero tasks; the tasks assigned to its queue
are never pulled and contribute no further error entries and no counter
changes — the final state does not depend on the assigned task list at
all (its oracle list `os` does not occur in the right-hand side). -/
theorem C9_amended_init_failure (os : List TaskOracle) (s : WorkerState)
    (hs : s.stop = false) :
    workerRun false os s =
      { s with stats := { s.stats with
          errors := s.stats.errors ++ [(s.username, ErrKind.initError)] } } := by
  simp [workerRun, init_browser, appendError, hs]

/-- C9 witness: the amended claim instantiated at a fresh worker with two
assigned tasks. -/
theorem C9_amended_init_failure_witness :
    workerRun false
        [{ login1 := true, post1 := true, login2 := true, login3 := true, post2 := true },
         { login1 := false, post1 := false, login2 := false, login3 := false, post2 := false }]
        (freshWorker "w")
      = { freshWorker "w" with stats := { (freshWorker "w").stats with
            errors := (freshWorker "w").stats.errors ++ [((freshWorker "w").username, ErrKind.initError)] } } :=
  C9_amended_init_failure
    [{ login1 := true, post1 := true, login2 := true, login3 := true, post2 := true },
     { login1 := false, post1 := false, login2 := false, login3 := false, post2 := false }]
    (freshWorker "w") (by decide)

/-- C7 (amended): with zero workers the distributor never enqueues
anything, but it is not error-free for every task sequence: it completes
without error exactly when the task list is empty or the cancellation
signal is already set at the first iteration, and otherwise raises
`ZeroDivisionError` (from `i % len(available_workers)`) before enqueuing
any task. -/
theorem C7_amended_zero_workers {α : Type} (comments : List α) (stopped : Nat → Bool) :
    distributeComments 0 comments stopped =
      (if comments.isEmpty || stopped 0 then Except.ok [] else Except.error ()) := by
  cases comments with
  | nil => simp [distributeComments, distributeAux]
  | cons c rest =>
    cases h : stopped 0 <;> simp [distributeComments, distributeAux, h]

/-- With a non-empty worker list and the cancellation signal never set,
the distributor refines the spec's assignment table: it enqueues
`tasks[i]` to worker index `i % W`, in order. -/
theorem distributeAux_no_stop {α : Type} (W : Nat) (hW : W ≠ 0) (i : Nat) (cs : List α) :
    distributeAux W (fun _ => false) i cs = Except.ok (specAssignFrom W i cs) := by
  induction cs generalizing i with
  | nil => rfl
  | cons c rest ih => simp [distributeAux, specAssignFrom, hW, ih, Except.map]

theorem countRange_succ (n W j : Nat) :
    countRange (n + 1) W j = countRange n W j + (if n % W = j then 1 else 0) := by
  simp only [countRange, List.range_succ, List.filter_append, List.length_append]
  by_cases h : n % W = j <;> simp [h]

theorem countRange_eq (W : Nat) (hW : 0 < W) (j : Nat) (hj : j < W) (n : Nat) :
    countRange n W j = n / W + if j < n % W then 1 else 0 := by
  induction n with
  | zero => simp [countRange]
  | succ n ih =>
    rw [countRange_succ, ih]
    have hlt : n % W < W := Nat.mod_lt n hW
    have hmod : (n + 1) % W = (n % W + 1) % W := by
      rw [Nat.add_mod, Nat.add_mod_mod]
    by_cases hr : n % W + 1 = W
    · have h0 : (n + 1) % W = 0 := by rw [hmod, hr, Nat.mod_self]
      have hdvd : W ∣ (n + 1) := Nat.dvd_of_mod_eq_zero h0
      have hdiv : (n + 1) / W = n / W + 1 := Nat.succ_div_of_dvd hdvd
      rw [h0, hdiv]
      split_ifs <;> omega
    · have hlt2 : n % W + 1 < W := by omega
      have hmod2 : (n + 1) % W = n % W + 1 := by
        rw [hmod]
        exact Nat.mod_eq_of_lt hlt2
      have hnd : ¬ W ∣ (n + 1) := by
        intro hd
        have h0 : (n + 1) % W = 0 := Nat.mod_eq_zero_of_dvd hd
        omega
      have hdiv2 : (n + 1) / W = n / W := Nat.succ_div_of_not_dvd hnd
      rw [hmod2, hdiv2]
      split_ifs <;> omega

theorem countRange_floor_ceil (W : Nat) (hW : 0 < W) (j : Nat) (hj : j < W) (n : Nat) :
    countRange n W j = n / W ∨ countRange n W j = (n + W - 1) / W := by
  rw [countRange_eq W hW j hj]
  by_cases h : j < n % W
  · right
    rw [if_pos h]
    have hlt : n % W < W := Nat.mod_lt n hW
    have hdm := Nat.div_add_mod n W
    have h2 : n + W - 1 = (n % W - 1) + W * (n / W + 1) := by
      rw [Nat.mul_succ]
      generalize W * (n / W) = X at hdm ⊢
      omega
    have hfin : (n % W - 1) / W = 0 := Nat.div_eq_of_lt (by omega)
    rw [h2, Nat.add_mul_div_left _ _ hW, hfin]
    omega
  · left
    rw [if_neg h]
    omega

theorem specAssignFrom_concat {α : Type} (W : Nat) (c : α) (cs : List α) (i : Nat) :
    specAssignFrom W i (cs ++ [c]) = specAssignFrom W i cs ++ [((i + cs.length) % W, c)] := by
  induction cs generalizing i with
  | nil => simp [specAssignFrom]
  | cons d rest ih =>
    have h : i + 1 + rest.length = i + (rest.length + 1) := by omega
    simp [specAssignFrom, ih, h]

theorem countFor_append {α : Type} (l1 l2 : List (Nat × α)) (j : Nat) :
    countFor (l1 ++ l2) j = countFor l1 j + countFor l2 j := by
  simp [countFor, List.filter_append]

/-- The number of tasks the spec's assignment table sends to worker `j`
equals the residue-class count over the task indices. -/
theorem countFor_specAssign {α : Type} (W j : Nat) (cs : List α) :
    countFor (specAssignFrom W 0 cs) j = countRange cs.length W j := by
  induction cs using List.reverseRecOn with
  | nil => rfl
  | append_singleton rest c ih =>
    rw [specAssignFrom_concat, countFor_append, List.length_append, ih]
    simp only [List.length_singleton]
    rw [countRange_succ]
    by_cases h : rest.length % W = j <;> simp [countFor, h]

/-- C6: the distributor shuffles the worker order exactly once (the
shuffled order is fixed before the loop and `distributeComments` receives
only its length `W`: worker indices are positions in that one fixed
order), then enqueues `tasks[i]` to worker `i % W` in order, so — with no
cancellation — the enqueue sequence is exactly the spec's assignment
table, and every worker index `j < W` receives either
`⌊len(tasks)/W⌋` or `⌈len(tasks)/W⌉` tasks. -/
theorem C6_round_robin_balance {α : Type} (W : Nat) (hW : 0 < W) (j : Nat) (hj : j < W)
    (comments : List α) :
    distributeComments W comments (fun _ => false) = Except.ok (specAssignFrom W 0 comments) ∧
    (countFor (specAssignFrom W 0 comments) j = comments.length / W ∨
     countFor (specAssignFrom W 0 comments) j = (comments.length + W - 1) / W) := by
  constructor
  · exact distributeAux_no_stop W (by omega) 0 comments
  · rw [countFor_specAssign]
    exact countRange_floor_ceil W hW j hj comments.length

/-- C6 witness: three tasks over two workers, no cancellation: worker 0
receives 2 = ⌈3/2⌉ tasks. -/
theorem C6_round_robin_balance_witness :
    distributeComments 2 [10, 20, 30] (fun _ => false)
        = Except.ok (specAssignFrom 2 0 [10, 20, 30]) ∧
    (countFor (specAssignFrom 2 0 [10, 20, 30]) 0 = [10, 20, 30].length / 2 ∨
     countFor (specAssignFrom 2 0 [10, 20, 30]) 0 = ([10, 20, 30].length + 2 - 1) / 2) :=
  C6_round_robin_balance 2 (by decide) 0 (by decide) [10, 20, 30]

/-- The function `get_stats` only touches `stopped_early`: all four counters are
unchanged. -/
theorem get_stats_counters (b : Bool) (st : CommentStats) :
    (get_stats b st).total_attempts = st.total_attempts ∧
    (get_stats b st).successful_posts = st.successful_posts ∧
    (get_stats b st).failed_posts = st.failed_posts ∧
    (get_stats b st).login_failures = st.login_failures := by
  cases b <;> simp [get_stats]

/-- Inserting a key not present in the dict appends a new entry. -/
theorem dictInsert_fresh {β : Type} (m : List (String × β)) (k : String) (v : β)
    (h : ∀ p ∈ m, p.1 ≠ k) : dictInsert m k v = m ++ [(k, v)] := by
  unfold dictInsert
  rw [if_neg]
  simp only [List.any_eq_true, decide_eq_true_eq, not_exists]
  intro p hc
  exact h p hc.1 hc.2

/-- With pairwise-distinct usernames (as `AsyncCommentManager.workers` is
a dict, its keys always are), the aggregation loop appends one
`worker_stats` entry per worker, in iteration order. -/
theorem statsLoop_by_account (stopSet : Bool) (ws : List (String × CommentStats)) :
    ∀ (tot : CommentStats) (m : List (String × PerWorkerStats)),
    (ws.map Prod.fst).Nodup →
    (∀ u ∈ ws.map Prod.fst, ∀ p ∈ m, p.1 ≠ u) →
    (statsLoop stopSet ws tot m).2
      = m ++ ws.map (fun p => (p.1, projStats (get_stats stopSet p.2))) := by
  induction ws with
  | nil =>
    intro tot m _ _
    simp [statsLoop]
  | cons hd rest ih =>
    intro tot m hnd hdis
    obtain ⟨u, s⟩ := hd
    have hfresh : ∀ p ∈ m, p.1 ≠ u := by
      intro p hp
      exact hdis u (by simp) p hp
    have hnd2 : (rest.map Prod.fst).Nodup := by
      simp only [List.map_cons, List.nodup_cons] at hnd
      exact hnd.2
    have hu : u ∉ rest.map Prod.fst := by
      simp only [List.map_cons, List.nodup_cons] at hnd
      exact hnd.1
    have hdis2 : ∀ u2 ∈ rest.map Prod.fst, ∀ p ∈ m ++ [(u, projStats (get_stats stopSet s))], p.1 ≠ u2 := by
      intro u2 hu2 p hp
      rcases List.mem_append.mp hp with hp1 | hp2
      · exact hdis u2 (by simp [hu2]) p hp1
      · have hp : p = (u, projStats (get_stats stopSet s)) := by simpa using hp2
        rw [hp]
        intro hcontra
        have hq : u = u2 := hcontra
        apply hu
        rw [hq]
        exact hu2
    show (statsLoop stopSet rest _ (dictInsert m u (projStats (get_stats stopSet s)))).2 = _
    rw [dictInsert_fresh m u _ hfresh, ih _ _ hnd2 hdis2]
    simp

/-- The running totals of the aggregation loop add the counters of every
iterated worker (independently of username duplication). -/
theorem statsLoop_totals (stopSet : Bool) (ws : List (String × CommentStats)) :
    ∀ (tot : CommentStats) (m : List (String × PerWorkerStats)),
    (statsLoop stopSet ws tot m).1.total_attempts
        = tot.total_attempts + (ws.map (fun p => p.2.total_attempts)).sum ∧
    (statsLoop stopSet ws tot m).1.successful_posts
        = tot.successful_posts + (ws.map (fun p => p.2.successful_posts)).sum ∧
    (statsLoop stopSet ws tot m).1.failed_posts
        = tot.failed_posts + (ws.map (fun p => p.2.failed_posts)).sum ∧
    (statsLoop stopSet ws tot m).1.login_failures
        = tot.login_failures + (ws.map (fun p => p.2.login_failures)).sum := by
  induction ws with
  | nil =>
    intro tot m
    simp [statsLoop]
  | cons hd rest ih =>
    intro tot m
    obtain ⟨u, s⟩ := hd
    have hst := get_stats_counters stopSet s
    show ((statsLoop stopSet rest _ _).1.total_attempts = _) ∧ _
    obtain ⟨i1, i2, i3, i4⟩ := ih
      { tot with
          total_attempts := tot.total_attempts + (get_stats stopSet s).total_attempts
          successful_posts := tot.successful_posts + (get_stats stopSet s).successful_posts
          failed_posts := tot.failed_posts + (get_stats stopSet s).failed_posts
          login_failures := tot.login_failures + (get_stats stopSet s).login_failures
          errors := tot.errors ++ (get_stats stopSet s).errors
          stopped_early := tot.stopped_early || (get_stats stopSet s).stopped_early }
      (dictInsert m u (projStats (get_stats stopSet s)))
    refine ⟨?_, ?_, ?_, ?_⟩ <;>
      simp only [statsLoop, i1, i2, i3, i4, List.map_cons, List.sum_cons] <;>
      omega

/-- Summing a per-worker counter over the built `worker_stats` entries
gives the same value as summing it over the raw worker stats. -/
theorem sum_by_account (stopSet : Bool) (ws : List (String × CommentStats)) :
    (((ws.map (fun p => (p.1, projStats (get_stats stopSet p.2)))).map
        (fun q => q.2.total_attempts)).sum
      = (ws.map (fun p => p.2.total_attempts)).sum) ∧
    (((ws.map (fun p => (p.1, projStats (get_stats stopSet p.2)))).map
        (fun q => q.2.successful_posts)).sum
      = (ws.map (fun p => p.2.successful_posts)).sum) ∧
    (((ws.map (fun p => (p.1, projStats (get_stats stopSet p.2)))).map
        (fun q => q.2.failed_posts)).sum
      = (ws.map (fun p => p.2.failed_posts)).sum) ∧
    (((ws.map (fun p => (p.1, projStats (get_stats stopSet p.2)))).map
        (fun q => q.2.login_failures)).sum
      = (ws.map (fun p => p.2.login_failures)).sum) := by
  induction ws with
  | nil => simp
  | cons hd rest ih =>
    obtain ⟨h1, h2, h3, h4⟩ := ih
    cases stopSet <;>
      simp [projStats, get_stats] at h1 h2 h3 h4 ⊢ <;>
      simp [h1, h2, h3, h4]

/-- C3: in the aggregate report of any run — whatever stats each worker
ended with and whether or not the stop event is set at collection time —
each `total` counter equals the sum of the corresponding `by_account`
per-worker counters. The hypothesis that usernames are pairwise distinct
always holds for a run because `AsyncCommentManager.workers` is a dict
keyed by username (see `setup_workers`). -/
theorem C3_totals_are_sums (stopSet : Bool) (workers : List (String × CommentStats))
    (h : (workers.map Prod.fst).Nodup) :
    (get_all_stats stopSet workers).total.total_attempts
        = ((get_all_stats stopSet workers).by_account.map (fun p => p.2.total_attempts)).sum ∧
    (get_all_stats stopSet workers).total.successful_posts
        = ((get_all_stats stopSet workers).by_account.map (fun p => p.2.successful_posts)).sum ∧
    (get_all_stats stopSet workers).total.failed_posts
        = ((get_all_stats stopSet workers).by_account.map (fun p => p.2.failed_posts)).sum ∧
    (get_all_stats stopSet workers).total.login_failures
        = ((get_all_stats stopSet workers).by_account.map (fun p => p.2.login_failures)).sum := by
  have hacc := statsLoop_by_account stopSet workers {} [] h (by simp)
  have htot := statsLoop_totals stopSet workers {} []
  obtain ⟨t1, t2, t3, t4⟩ := htot
  obtain ⟨m1, m2, m3, m4⟩ := sum_by_account stopSet workers
  simp only [get_all_stats, hacc, List.nil_append, t1, t2, t3, t4]
  exact ⟨by rw [Nat.zero_add]; exact m1.symm, by rw [Nat.zero_add]; exact m2.symm,
         by rw [Nat.zero_add]; exact m3.symm, by rw [Nat.zero_add]; exact m4.symm⟩

/-- C3 witness: two workers with distinct usernames and concrete stats. -/
theorem C3_totals_are_sums_witness :
    (get_all_stats false
        [("a", { total_attempts := 3, successful_posts := 1, failed_posts := 2, login_failures := 1 }),
         ("b", { total_attempts := 2, successful_posts := 2, failed_posts := 0, login_failures := 0 })]).total.total_attempts
      = ((get_all_stats false
            [("a", { total_attempts := 3, successful_posts := 1, failed_posts := 2, login_failures := 1 }),
             ("b", { total_attempts := 2, successful_posts := 2, failed_posts := 0, login_failures := 0 })]).by_account.map
          (fun p => p.2.total_attempts)).sum :=
  (C3_totals_are_sums false
    [("a", { total_attempts := 3, successful_posts := 1, failed_posts := 2, login_failures := 1 }),
     ("b", { total_attempts := 2, successful_posts := 2, failed_posts := 0, login_failures := 0 })]
    (by decide)).1

/-- If the cancellation signal is already set at the first iteration, the
distributor enqueues nothing. -/
theorem distribute_stop0 {α : Type} (W : Nat) (comments : List α) (stopped : Nat → Bool)
    (h0 : stopped 0 = true) :
    distributeComments W comments stopped = Except.ok [] := by
  cases comments with
  | nil => rfl
  | cons c rest => simp [distributeComments, distributeAux, h0]

/-- The `total_attempts` field of the report is the sum of the raw
per-worker `total_attempts`. -/
theorem get_all_stats_total_attempts (stopSet : Bool) (ws : List (String × CommentStats)) :
    (get_all_stats stopSet ws).total.total_attempts
      = (ws.map (fun p => p.2.total_attempts)).sum := by
  obtain ⟨t1, _, _, _⟩ := statsLoop_totals stopSet ws {} []
  simp [get_all_stats, t1]

/-- A worker that pulls no tasks records zero attempts, whether or not its
browser initialization succeeds. -/
theorem workerRun_nil_attempts (initOutcome : Bool) (u : String) :
    (workerRun initOutcome [] (freshWorker u)).stats.total_attempts = 0 := by
  cases initOutcome <;> simp [workerRun, init_browser, runTasks, appendError, freshWorker]

/-- Once the signal is set at some index `k` (and stays set: the event is
set-once), any successfully completed distribution enqueues at most the
first `k` tasks, counting from start index `i`. -/
theorem distributeAux_length_le {α : Type} (W : Nat) (stopped : Nat → Bool)
    (hmono : ∀ i j, i ≤ j → stopped i = true → stopped j = true)
    (k : Nat) (hk : stopped k = true) :
    ∀ (cs : List α) (i : Nat) (l : List (Nat × α)),
      distributeAux W stopped i cs = Except.ok l → l.length ≤ k - i := by
  intro cs
  induction cs with
  | nil =>
    intro i l hok
    simp only [distributeAux] at hok
    cases hok
    simp
  | cons c rest ih =>
    intro i l hok
    by_cases hsi : stopped i = true
    · simp only [distributeAux, hsi, if_true] at hok
      cases hok
      simp
    · have hik : i < k := by
        rcases Nat.lt_or_ge i k with h | h
        · exact h
        · exact absurd (hmono k i h hk) hsi
      have hW : ¬ W = 0 := by
        intro h0
        simp [distributeAux, hsi, h0] at hok
      rcases hrec : distributeAux W stopped (i + 1) rest with e | tail
      · simp [distributeAux, hsi, hW, hrec, Except.map] at hok
      · have hrest := ih (i + 1) tail hrec
        simp [distributeAux, hsi, hW, hrec, Except.map] at hok
        rw [← hok]
        simp only [List.length_cons]
        omega

/-- The full pipeline reports zero total attempts when the signal is set
before any assignment. -/
theorem runReport_stop0 {α : Type} (names : List String) (comments : List α)
    (stopped : Nat → Bool) (initOk : Nat → Bool) (oracle : Nat → Nat → TaskOracle)
    (stopSet : Bool) (h0 : stopped 0 = true) :
    Except.map (fun r => r.total.total_attempts)
        (runReport names comments stopped initOk oracle stopSet) = Except.ok 0 := by
  have hd : distributeComments names.length comments stopped = Except.ok [] :=
    distribute_stop0 names.length comments stopped h0
  simp only [runReport, hd, Except.map, get_all_stats_total_attempts]
  congr 1
  apply List.sum_eq_zero
  intro x hx
  simp only [List.map_map, List.mem_map, Function.comp] at hx
  obtain ⟨p, _, hx⟩ := hx
  rw [← hx]
  simp [countFor, workerRun_nil_attempts]

/-- C8: with a set-once cancellation signal, (a) if the signal is set
before any task is assigned then the distributor enqueues nothing and the
final report has zero total attempts, and (b) once the signal is set at
index `k`, the distributor never enqueues any further task: any completed
distribution contains at most the first `k` tasks (the rest are simply
dropped). -/
theorem C8_cancellation_stops_distribution {α : Type} (names : List String)
    (comments : List α) (stopped : Nat → Bool) (initOk : Nat → Bool)
    (oracle : Nat → Nat → TaskOracle) (stopSet : Bool)
    (hmono : ∀ i j, i ≤ j → stopped i = true → stopped j = true) :
    (stopped 0 = true →
      distributeComments names.length comments stopped = Except.ok [] ∧
      Except.map (fun r => r.total.total_attempts)
          (runReport names comments stopped initOk oracle stopSet) = Except.ok 0) ∧
    (∀ k l, stopped k = true →
      distributeComments names.length comments stopped = Except.ok l → l.length ≤ k) := by
  constructor
  · intro h0
    exact ⟨distribute_stop0 names.length comments stopped h0,
           runReport_stop0 names comments stopped initOk oracle stopSet h0⟩
  · intro k l hk hok
    have := distributeAux_length_le names.length stopped hmono k hk comments 0 l hok
    omega

/-- C8 witness: one worker, three tasks, signal set from the start:
nothing is enqueued, the report counts zero attempts, and every completed
distribution is bounded by any set index. -/
theorem C8_cancellation_stops_distribution_witness :
    distributeComments [("a" : String)].length [1, 2, 3] (fun _ => true) = Except.ok [] ∧
    Except.map (fun r => r.total.total_attempts)
        (runReport ["a"] [1, 2, 3] (fun _ => true) (fun _ => true)
          (fun _ _ => { login1 := true, post1 := true, login2 := true, login3 := true, post2 := true })
          true) = Except.ok 0 :=
  (C8_cancellation_stops_distribution ["a"] [1, 2, 3] (fun _ => true) (fun _ => true)
    (fun _ _ => { login1 := true, post1 := true, login2 := true, login3 := true, post2 := true })
    true (fun _ _ _ h => h)).1 rfl

/-- C10: when two accounts share a username, the manager's worker dict is
keyed by username, so the earlier account's worker is overwritten by the
later one: the earlier worker is still created and its run loop started
(it is in the started-tasks list), but it is absent from the `workers`
dict values — so the distributor, which enqueues only to
`list(self.workers.values())`, never sends it a task — and the final
report's `by_account` map and totals are built from the later worker
alone, whatever stats either worker ends with. -/
theorem C10_duplicate_username_shadowed (a b : Account) (h : a.username = b.username)
    (statsOf : Worker → CommentStats) (stopSet : Bool) :
    (setup_workers [a, b]).2 = [{ idx := 0, account := a }, { idx := 1, account := b }] ∧
    (setup_workers [a, b]).1 = [(b.username, { idx := 1, account := b })] ∧
    ({ idx := 0, account := a } : Worker) ∉ (setup_workers [a, b]).1.map (fun p => p.2) ∧
    (get_all_stats stopSet
        ((setup_workers [a, b]).1.map (fun p => (p.1, statsOf p.2)))).by_account
      = [(b.username, projStats (get_stats stopSet (statsOf { idx := 1, account := b })))] ∧
    (get_all_stats stopSet
        ((setup_workers [a, b]).1.map (fun p => (p.1, statsOf p.2)))).total.total_attempts
      = (statsOf { idx := 1, account := b }).total_attempts := by
  have hsetup : (setup_workers [a, b]).1 = [(b.username, { idx := 1, account := b })] := by
    simp [setup_workers, dictInsert, h, List.enum, List.enumFrom, List.foldl_cons, List.foldl_nil]
  refine ⟨?_, hsetup, ?_, ?_, ?_⟩
  · simp [setup_workers, dictInsert, h, List.enum, List.enumFrom, List.foldl_cons, List.foldl_nil]
  · rw [hsetup]
    simp [Worker.mk.injEq]
  · rw [hsetup]
    simp [get_all_stats, statsLoop, dictInsert]
  · rw [hsetup]
    obtain ⟨hc, _, _, _⟩ := get_stats_counters stopSet (statsOf { idx := 1, account := b })
    simp [get_all_stats, statsLoop, hc]

/-- C10 witness: two accounts with the same username `"u"`, with per-worker
stats distinguishing the two workers (5 + idx attempts): only the later
worker's 6 attempts reach the totals. -/
theorem C10_duplicate_username_shadowed_witness :
    (setup_workers [⟨"u", "p1"⟩, ⟨"u", "p2"⟩]).2
        = [{ idx := 0, account := ⟨"u", "p1"⟩ }, { idx := 1, account := ⟨"u", "p2"⟩ }] ∧
    (setup_workers [⟨"u", "p1"⟩, ⟨"u", "p2"⟩]).1
        = [(Account.username ⟨"u", "p2"⟩, { idx := 1, account := ⟨"u", "p2"⟩ })] ∧
    ({ idx := 0, account := ⟨"u", "p1"⟩ } : Worker)
        ∉ (setup_workers [⟨"u", "p1"⟩, ⟨"u", "p2"⟩]).1.map (fun p => p.2) ∧
    (get_all_stats false
        ((setup_workers [⟨"u", "p1"⟩, ⟨"u", "p2"⟩]).1.map
          (fun p => (p.1, (fun w : Worker => ({ total_attempts := 5 + w.idx } : CommentStats)) p.2)))).by_account
      = [(Account.username ⟨"u", "p2"⟩,
          projStats (get_stats false
            ((fun w : Worker => ({ total_attempts := 5 + w.idx } : CommentStats))
              { idx := 1, account := ⟨"u", "p2"⟩ })))] ∧
    (get_all_stats false
        ((setup_workers [⟨"u", "p1"⟩, ⟨"u", "p2"⟩]).1.map
          (fun p => (p.1, (fun w : Worker => ({ total_attempts := 5 + w.idx } : CommentStats)) p.2)))).total.total_attempts
      = ((fun w : Worker => ({ total_attempts := 5 + w.idx } : CommentStats))
          { idx := 1, account := ⟨"u", "p2"⟩ }).total_attempts :=
  C10_duplicate_username_shadowed ⟨"u", "p1"⟩ ⟨"u", "p2"⟩ rfl
    (fun w : Worker => ({ total_attempts := 5 + w.idx } : CommentStats)) false

end BotCommenter
